import Mathlib

set_option linter.unusedVariables false

/-!
Shallow embedding of `src/app_alternate.py` (AutoGen-Dynamic-Agent-Builder).

Timestamps (Python `time.time()` floats) are modelled as rationals.
Python `int` fields are modelled as `Int`; Python `max`/`min`/`%` map to the
corresponding `Int` operations (Python `%` with a positive divisor agrees
with `Int.emod`).  Error-message strings are modelled as `List Char`, and
Python's substring test `pat in s` as the executable `hasSub` below.
-/

/-- Model of text (Python `str`) as a list of characters. -/
abbrev Chars := List Char

/-- Whether `pat` occurs at the head of `s` (helper for substring search). -/
def startsWithChars : Chars → Chars → Bool
  | [], _ => true
  | _ :: _, [] => false
  | a :: as, b :: bs => a == b && startsWithChars as bs

/-- Python's substring containment test `pat in s`. -/
def hasSub (pat : Chars) : Chars → Bool
  | [] => startsWithChars pat []
  | c :: rest => startsWithChars pat (c :: rest) || hasSub pat rest

/-!
### RateLimitManager (src/app_alternate.py lines 34-102)
-/

/-- State of `RateLimitManager` (`__init__`, lines 39-50).  `request_times`
holds the timestamps appended by `wait_if_needed`. -/
structure RateLimitManager where
  base_rpm : ℤ
  is_paid_tier : Bool
  current_rpm : ℤ
  request_times : List ℚ
  error_count : ℤ
  success_count : ℤ
  last_rate_limit_time : Option ℚ
  max_rpm : ℤ
  min_rpm : ℤ
  deriving DecidableEq

/-- `RateLimitManager.__init__` (lines 39-50): `max_rpm = 60 if is_paid_tier
else 15`, `min_rpm = 3`, `current_rpm = base_rpm`. -/
def RateLimitManager.init (base_rpm : ℤ) (is_paid_tier : Bool) : RateLimitManager :=
  { base_rpm := base_rpm
    is_paid_tier := is_paid_tier
    current_rpm := base_rpm
    request_times := []
    error_count := 0
    success_count := 0
    last_rate_limit_time := none
    max_rpm := if is_paid_tier then 60 else 15
    min_rpm := 3 }

/-- The pruning filter in `can_make_request` (line 61): keep `t` with
`current_time - t < 60`. -/
def pruneQ (now : ℚ) (ts : List ℚ) : List ℚ :=
  ts.filter (fun t => now - t < 60)

/-- `can_make_request` (lines 56-63): prune `request_times` in place, admit
iff the retained count is below `current_rpm`.  Returns the boolean and the
mutated state. -/
def RateLimitManager.can_make_request (s : RateLimitManager) (now : ℚ) :
    Bool × RateLimitManager :=
  let rt := pruneQ now s.request_times
  (decide ((rt.length : ℤ) < s.current_rpm), { s with request_times := rt })

/-- `min(request_times)` for a (nonempty) list; on `[]` we return `0`, a
case the callers below never rely on. -/
def listMin : List ℚ → ℚ
  | [] => 0
  | t :: ts => ts.foldl min t

/-- `wait_if_needed` (lines 65-81).  `now` is `time.time()` on entry and
`jitter` the value drawn by `random.uniform(1, 3)`.  On the fast path the
current timestamp is appended and the wait is 0; otherwise the code sleeps
`60 - (now - oldest) + jitter` (or `60 / current_rpm` on an empty window)
and appends the post-sleep timestamp `now + wait`.  Returns the wait time
and the mutated state. -/
def RateLimitManager.wait_if_needed (s : RateLimitManager) (now jitter : ℚ) :
    ℚ × RateLimitManager :=
  let (ok, s1) := s.can_make_request now
  if ok then
    (0, { s1 with request_times := s1.request_times ++ [now] })
  else
    let wait :=
      if s1.request_times.isEmpty then (60 : ℚ) / (s.current_rpm : ℚ)
      else 60 - (now - listMin s1.request_times) + jitter
    (wait, { s1 with request_times := s1.request_times ++ [now + wait] })

/-- `record_success` (lines 83-91): bump `success_count`, decay
`error_count` (floored at 0), and on every 10th cumulative success with
`current_rpm < max_rpm` raise the ceiling by 1 capped at `max_rpm`. -/
def RateLimitManager.record_success (s : RateLimitManager) : RateLimitManager :=
  let sc := s.success_count + 1
  let ec := max 0 (s.error_count - 1)
  let s1 := { s with success_count := sc, error_count := ec }
  if sc % 10 == 0 && decide (s1.current_rpm < s1.max_rpm) then
    { s1 with current_rpm := min (s1.current_rpm + 1) s1.max_rpm }
  else s1

/-- `record_error` (lines 93-102): bump `error_count`, stamp
`last_rate_limit_time`; once `error_count >= 3`, lower the ceiling by 2
floored at `min_rpm` and reset the counter to 0. -/
def RateLimitManager.record_error (s : RateLimitManager) (error_msg : Chars)
    (now : ℚ) : RateLimitManager :=
  let ec := s.error_count + 1
  let s1 := { s with error_count := ec, last_rate_limit_time := some now }
  if decide (3 ≤ ec) then
    { s1 with current_rpm := max (s1.current_rpm - 2) s1.min_rpm, error_count := 0 }
  else s1

/-!
### ResilientLLMConfig.execute_with_retry (src/app_alternate.py lines 124-165)

The wrapped call `func` is modelled as a map from the attempt index to
either a result or the message of the exception it raises.  `env` supplies,
per attempt, the `time.time()` value seen by `wait_if_needed` and the
jitter drawn there.  Backoff sleeps and `_extract_retry_delay` affect only
timing, which `env` abstracts.  Ghost fields (`calls`, `succCalls`,
`errCalls`) count the underlying call attempts and the `record_success` /
`record_error` invocations; `retNone` is the trailing `return None` after
the loop (line 165).
-/

/-- Outcome of `execute_with_retry`: a returned result, a raised exception
(with its message), or the trailing `return None`. -/
inductive RetryOutcome (α : Type) where
  | ok (a : α)
  | raised (msg : Chars)
  | retNone
  deriving DecidableEq

/-- Result of `execute_with_retry` together with the final rate-manager
state and ghost counters for call attempts and record invocations. -/
structure RetryResult (α : Type) where
  outcome : RetryOutcome α
  rl : RateLimitManager
  calls : ℕ
  succCalls : ℕ
  errCalls : ℕ
  deriving DecidableEq

/-- The throttling marker `"429"` tested on line 139. -/
def marker429 : Chars := "429".toList

/-- The throttling marker `"RESOURCE_EXHAUSTED"` tested on line 139. -/
def markerResource : Chars := "RESOURCE_EXHAUSTED".toList

/-- The billing/quota marker `"QUOTA_EXCEEDED"` tested on line 152. -/
def markerQuota : Chars := "QUOTA_EXCEEDED".toList

/-- Message of `raise Exception("Rate limit exceeded after maximum retries")`
(line 150). -/
def msgRateExceeded : Chars := "Rate limit exceeded after maximum retries".toList

/-- Message of `raise Exception("API quota exceeded")` (line 154). -/
def msgQuota : Chars := "API quota exceeded".toList

/-- The loop body of `execute_with_retry` (lines 129-163), with `fuel` the
remaining iterations of `for attempt in range(5)` and `attempt` the current
index; `attempt < 4` is the source's `attempt < max_retries - 1` and
`attempt < 2` the transient-error retry bound. -/
def retryLoop {α : Type} (func : ℕ → Except Chars α) (env : ℕ → ℚ × ℚ) :
    ℕ → ℕ → RateLimitManager → ℕ → ℕ → ℕ → RetryResult α
  | 0, _attempt, s, nc, ns, ne => ⟨.retNone, s, nc, ns, ne⟩
  | fuel + 1, attempt, s, nc, ns, ne =>
    let now := (env attempt).1
    let s1 := (s.wait_if_needed now (env attempt).2).2
    match func attempt with
    | .ok a => ⟨.ok a, s1.record_success, nc + 1, ns + 1, ne⟩
    | .error e =>
      if hasSub marker429 e || hasSub markerResource e then
        let s2 := s1.record_error e now
        if attempt < 4 then retryLoop func env fuel (attempt + 1) s2 (nc + 1) ns (ne + 1)
        else ⟨.raised msgRateExceeded, s2, nc + 1, ns, ne + 1⟩
      else if hasSub markerQuota e then
        ⟨.raised msgQuota, s1, nc + 1, ns, ne⟩
      else if attempt < 2 then retryLoop func env fuel (attempt + 1) s1 (nc + 1) ns ne
      else ⟨.raised e, s1, nc + 1, ns, ne⟩

/-- `execute_with_retry` (lines 124-165): `max_retries = 5`, starting at
attempt 0 with zeroed ghost counters. -/
def execute_with_retry {α : Type} (func : ℕ → Except Chars α) (env : ℕ → ℚ × ℚ)
    (s : RateLimitManager) : RetryResult α :=
  retryLoop func env 5 0 s 0 0 0

/-!
### TaskComplexityAnalyzer (src/app_alternate.py lines 178-216)
-/

/-- The `TaskComplexity` enum (lines 28-32). -/
inductive TaskComplexity where
  | simple
  | medium
  | complex
  | enterprise
  deriving DecidableEq

/-- Numeric rank of a tier, for "at least Complex"-style statements. -/
def TaskComplexity.rank : TaskComplexity → ℕ
  | .simple => 0
  | .medium => 1
  | .complex => 2
  | .enterprise => 3

/-- `enterprise_keywords` (lines 189-192). -/
def enterprise_keywords : List Chars :=
  ["enterprise".toList, "large-scale".toList, "production".toList,
   "deployment".toList, "scalable".toList, "multi-platform".toList,
   "comprehensive system".toList, "full-stack".toList, "architecture".toList]

/-- `complex_keywords` (lines 195-199). -/
def complex_keywords : List Chars :=
  ["machine learning".toList, "ai model".toList, "deep learning".toList,
   "neural network".toList, "data analysis".toList, "statistical analysis".toList,
   "research paper".toList, "comprehensive".toList, "multiple datasets".toList,
   "web scraping".toList, "api integration".toList, "database".toList]

/-- `medium_keywords` (lines 202-205). -/
def medium_keywords : List Chars :=
  ["analyze".toList, "build".toList, "create".toList, "develop".toList,
   "implement".toList, "design".toList, "application".toList, "tool".toList,
   "script".toList, "visualization".toList, "report".toList]

/-- Helper for `len(task_description.split())`: accumulate the current word
(reversed) and count maximal whitespace-free runs. -/
def wordsAux : Chars → Chars → List Chars
  | [], acc => if acc.isEmpty then [] else [acc.reverse]
  | c :: cs, acc =>
    if c.isWhitespace then
      if acc.isEmpty then wordsAux cs [] else acc.reverse :: wordsAux cs []
    else wordsAux cs (c :: acc)

/-- Python `str.split()` with no separator: split on whitespace runs,
discarding empties. -/
def splitWS (s : Chars) : List Chars := wordsAux s []

/-- `word_count = len(task_description.split())` (line 207). -/
def wordCount (s : Chars) : ℕ := (splitWS s).length

/-- `task_lower = task_description.lower()` (line 186). -/
def lowerChars (s : Chars) : Chars := s.map Char.toLower

/-- `any(keyword in task_lower for keyword in kws)`. -/
def anyKeyword (kws : List Chars) (task_lower : Chars) : Bool :=
  kws.any (fun k => hasSub k task_lower)

/-- `TaskComplexityAnalyzer.analyze_complexity` (lines 183-216). -/
def analyze_complexity (task_description : Chars) : TaskComplexity :=
  let task_lower := lowerChars task_description
  let word_count := wordCount task_description
  if anyKeyword enterprise_keywords task_lower || decide (100 < word_count) then
    .enterprise
  else if anyKeyword complex_keywords task_lower || decide (50 < word_count) then
    .complex
  else if anyKeyword medium_keywords task_lower || decide (20 < word_count) then
    .medium
  else
    .simple

/-!
### EnhancedAutoAgentBuilder (src/app_alternate.py lines 234-497)

The LLM interaction in `_get_agent_specifications` (lines 316-361) is an
external collaborator; its observable output is the raw response text
`last_message`.  Likewise `json.loads` is Python library code: it is
modelled as a parameter `loads` mapping the extracted substring to the
parsed value or a parse error.  Parsed JSON values are modelled by `PyVal`,
exceptions by `PyErr`, and the constructed autogen agents by `AgentModel`
descriptors (name, system message, resilient-wrapper flag / workspace).
-/

/-- A parsed Python value as produced by `json.loads`. -/
inductive PyVal where
  | str (s : Chars)
  | bool (b : Bool)
  | int (n : ℤ)
  | list (xs : List PyVal)
  | dict (kvs : List (Chars × PyVal))
  | none

/-- Python exceptions distinguished by the modelled code paths. -/
inductive PyErr where
  | keyErr (k : Chars)
  | valueErr (msg : Chars)
  | typeErr
  | attrErr
  | parseErr
  deriving DecidableEq

/-- Dictionary lookup (`d[k]` / `d.get(k)`): first binding of `k`. -/
def dictGet (kvs : List (Chars × PyVal)) (k : Chars) : Option PyVal :=
  match kvs.find? (fun kv => kv.1 == k) with
  | some kv => some kv.2
  | Option.none => Option.none

/-- Python truthiness of a parsed value. -/
def truthy : PyVal → Bool
  | .str s => !s.isEmpty
  | .bool b => b
  | .int n => n != 0
  | .list xs => !xs.isEmpty
  | .dict kvs => !kvs.isEmpty
  | .none => false

/-- An agent instance, as observable from the roster: `assistant` is an
`autogen.AssistantAgent` (with `resilient = true` when wrapped in
`ResilientAgent`), `userProxy` an `autogen.UserProxyAgent` with its
`work_dir`. -/
inductive AgentModel where
  | assistant (name : Chars) (system_message : Chars) (resilient : Bool)
  | userProxy (name : Chars) (system_message : Chars) (work_dir : Chars)
  deriving DecidableEq

/-- Name of an agent in the roster. -/
def AgentModel.agentName : AgentModel → Chars
  | .assistant n _ _ => n
  | .userProxy n _ _ => n

/-- Rendering of a parsed value inside an f-string (`str()`); the claims
below never depend on the rendering of non-string values. -/
def pyRender : PyVal → Chars
  | .str s => s
  | .bool b => if b then "True".toList else "False".toList
  | .int n => (toString n).toList
  | .list _ => "[...]".toList
  | .dict _ => "\x7b...\x7d".toList
  | .none => "None".toList

/-- Helper for `', '.join`: fold the list elements, requiring strings. -/
def joinCommaList : List PyVal → Option Chars → Except PyErr Chars
  | [], acc => .ok (acc.getD [])
  | x :: xs, acc =>
    match x with
    | .str s =>
      joinCommaList xs (some (match acc with
        | Option.none => s
        | some a => a ++ ", ".toList ++ s))
    | _ => .error PyErr.typeErr

/-- `', '.join(xs)` over a parsed value: joins a list of strings, the
characters of a string, or the keys of a dict (JSON dict keys are always
strings); a non-string list element raises `TypeError`, and so do
non-iterable values (int/bool/None). -/
def joinComma : PyVal → Except PyErr Chars
  | .list xs => joinCommaList xs Option.none
  | .str s =>
    .ok (match s with
      | [] => []
      | c :: cs => cs.foldl (fun a d => a ++ ", ".toList ++ [d]) [c])
  | .dict kvs => joinCommaList (kvs.map (fun kv => PyVal.str kv.1)) Option.none
  | _ => .error PyErr.typeErr

/-- The `enhanced_message` f-string of `_create_agent_from_spec`
(lines 376-387), assembled from the task, role, system message and joined
capability list. -/
def enhanced_message (task role sysmsg caps : Chars) : Chars :=
  "\n        TASK CONTEXT: ".toList ++ task ++
  "\n        \n        ROLE: ".toList ++ role ++
  "\n        \n        ".toList ++ sysmsg ++
  "\n        \n        Your capabilities: ".toList ++ caps ++
  "\n        \n        Work collaboratively and efficiently with other agents.\n        Be thorough but respect API rate limits.\n        ".toList

/-- `_create_agent_from_spec` (lines 373-412).  Building `enhanced_message`
happens before the `try` block: a missing `role`/`system_message` key, a
non-dict spec, or a malformed capability list raises out of the function
(`Except.error`).  Inside the `try`, a missing or non-string `name`
(`spec['name']` / `spec['name'].lower()` / the constructors' name
validation) is caught by the `except` and yields `None` (`Option.none`),
skipping the entry.  `needs_coding` specs become `UserProxyAgent`s with
`work_dir = "workspace_" + name.lower()`; others become `AssistantAgent`s
wrapped in `ResilientAgent`. -/
def create_agent_from_spec (spec : PyVal) (task_description : Chars) :
    Except PyErr (Option AgentModel) :=
  match spec with
  | .dict kvs =>
    match dictGet kvs "role".toList, dictGet kvs "system_message".toList with
    | some roleV, some sysV =>
      match joinComma ((dictGet kvs "capabilities".toList).getD (PyVal.list [])) with
      | .error e => .error e
      | .ok caps =>
        let msg := enhanced_message task_description (pyRender roleV) (pyRender sysV) caps
        let needs := truthy ((dictGet kvs "needs_coding".toList).getD (PyVal.bool false))
        match dictGet kvs "name".toList with
        | some (.str name) =>
          if needs then
            .ok (some (.userProxy name msg ("workspace_".toList ++ lowerChars name)))
          else
            .ok (some (.assistant name msg true))
        | some _ => .ok Option.none
        | Option.none => .ok Option.none
    | some _, Option.none => .error (.keyErr "system_message".toList)
    | Option.none, _ => .error (.keyErr "role".toList)
  | _ => .error PyErr.typeErr

/-- `s.find(c)` : index of the first occurrence of `c` in `s`, or `-1`. -/
def strFind (s : Chars) (c : Char) : ℤ :=
  match s.findIdx? (fun d => d == c) with
  | some i => (i : ℤ)
  | Option.none => -1

/-- `s.rfind(c)` : index of the last occurrence of `c` in `s`, or `-1`. -/
def strRfind (s : Chars) (c : Char) : ℤ :=
  match s.reverse.findIdx? (fun d => d == c) with
  | some i => (s.length : ℤ) - 1 - (i : ℤ)
  | Option.none => -1

/-- Python slice `s[a:b]` for the non-negative indices arising here. -/
def pySlice (s : Chars) (a b : ℤ) : Chars :=
  (s.take b.toNat).drop a.toNat

/-- The response-processing tail of `_get_agent_specifications`
(lines 363-371): locate the first `\x7b` and last `\x7d`, slice, and parse
with `json.loads` (the `loads` parameter); with no opening brace,
`json_start = -1` and the code raises `ValueError("No valid JSON found in
response")`. -/
def get_agent_specifications (loads : Chars → Except PyErr PyVal)
    (last_message : Chars) : Except PyErr PyVal :=
  let json_start := strFind last_message '\x7b'
  let json_end := strRfind last_message '\x7d' + 1
  if json_start ≠ -1 ∧ json_end ≠ -1 then
    loads (pySlice last_message json_start json_end)
  else
    .error (.valueErr "No valid JSON found in response".toList)

/-- The `for spec in agent_specs.get('agents', [])` loop shared by
`_build_simple_agents` (lines 301-304) and `_build_complex_agents`
(lines 276-279): agents that materialize are appended, `None` results are
skipped, and an exception aborts the whole loop. -/
def buildLoop (task_description : Chars) :
    List PyVal → List AgentModel → Except PyErr (List AgentModel)
  | [], acc => .ok acc
  | spec :: rest, acc =>
    match create_agent_from_spec spec task_description with
    | .error e => .error e
    | .ok Option.none => buildLoop task_description rest acc
    | .ok (some a) => buildLoop task_description rest (acc ++ [a])

/-- `agent_specs.get('agents', [])` followed by the loop: a non-dict parse
result raises `AttributeError` (`.get` missing).  Iterating the `agents`
value follows Python: a list yields its entries, a string its 1-character
strings, a dict its (string) keys — each non-dict element then raises
inside the loop (`spec['role']` on a string), while an empty iterable runs
the loop zero times; int/bool/None are not iterable and raise
`TypeError`. -/
def buildFromSpecs (agent_specs : PyVal) (task_description : Chars) :
    Except PyErr (List AgentModel) :=
  match agent_specs with
  | .dict kvs =>
    match (dictGet kvs "agents".toList).getD (PyVal.list []) with
    | .list specs => buildLoop task_description specs []
    | .str s => buildLoop task_description (s.map (fun c => PyVal.str [c])) []
    | .dict kvs2 =>
      buildLoop task_description (kvs2.map (fun kv => PyVal.str kv.1)) []
    | _ => .error PyErr.typeErr
  | _ => .error PyErr.attrErr

/-- The try-block of `_build_simple_agents` / `_build_complex_agents`
(lines 296-306 and 273-283): retrieve the model response's spec object and
materialize the roster; the `.error` results are exactly the raised
exceptions the `except` handlers catch. -/
def specPipeline (loads : Chars → Except PyErr PyVal)
    (last_message task_description : Chars) : Except PyErr (List AgentModel) := do
  let specs ← get_agent_specifications loads last_message
  buildFromSpecs specs task_description

/-- `_create_fallback_simple_agents` (lines 488-497): one resilient
`PrimaryAgent`. -/
def create_fallback_simple_agents (task_description : Chars) : List AgentModel :=
  [.assistant "PrimaryAgent".toList
    ("You are the primary agent for: ".toList ++ task_description ++
     ". Handle the main task efficiently and effectively.".toList) true]

/-- `_create_fallback_complex_agents` (lines 452-486): `ResearchSpecialist`
(resilient), `TechnicalImplementer` (user proxy, `technical_workspace`),
`AnalysisExpert` (resilient). -/
def create_fallback_complex_agents (task_description : Chars) : List AgentModel :=
  [.assistant "ResearchSpecialist".toList
    ("You are a research specialist for: ".toList ++ task_description ++
     ". Focus on gathering information, analyzing data, and providing insights.".toList) true,
   .userProxy "TechnicalImplementer".toList
    ("You handle technical implementation for: ".toList ++ task_description ++
     ". Write code, create tools, and execute technical solutions.".toList)
    "technical_workspace".toList,
   .assistant "AnalysisExpert".toList
    ("You are an analysis expert for: ".toList ++ task_description ++
     ". Provide detailed analysis, insights, and recommendations.".toList) true]

/-- `_create_coordination_agents` (lines 414-450): resilient
`ProjectManager` and `QualityAssurance` assistants (system messages
abbreviated to their identifying head; no claim inspects them). -/
def create_coordination_agents (task_description : Chars) : List AgentModel :=
  [.assistant "ProjectManager".toList
    ("You are the project manager for: ".toList ++ task_description) true,
   .assistant "QualityAssurance".toList
    ("You are the quality assurance specialist for: ".toList ++ task_description) true]

/-- `_build_simple_agents` (lines 291-310): `max_agents` is 3 for medium
else 2 (it only sizes the prompt); any exception from spec retrieval,
parsing, or the build loop falls back to
`_create_fallback_simple_agents`. -/
def build_simple_agents (loads : Chars → Except PyErr PyVal)
    (last_message : Chars) (task_description : Chars)
    (complexity : TaskComplexity) : List AgentModel :=
  let max_agents : ℕ := if complexity = .medium then 3 else 2
  match specPipeline loads last_message task_description with
  | .ok agents => agents
  | .error _ => create_fallback_simple_agents task_description

/-- `_build_complex_agents` (lines 257-289): `max_agents` is 7 for
enterprise else 5 (prompt sizing only); exceptions fall back to
`_create_fallback_complex_agents`; for enterprise the coordination agents
are appended afterwards in either case. -/
def build_complex_agents (loads : Chars → Except PyErr PyVal)
    (last_message : Chars) (task_description : Chars)
    (complexity : TaskComplexity) : List AgentModel :=
  let max_agents : ℕ := if complexity = .enterprise then 7 else 5
  let agents :=
    match specPipeline loads last_message task_description with
    | .ok agents => agents
    | .error _ => create_fallback_complex_agents task_description
  if complexity = .enterprise then agents ++ create_coordination_agents task_description
  else agents

/-- `analyze_task_and_build_agents` (lines 242-255): classify, then build
via the complex or the simple path. -/
def analyze_task_and_build_agents (loads : Chars → Except PyErr PyVal)
    (last_message : Chars) (task_description : Chars) : List AgentModel :=
  let complexity := analyze_complexity task_description
  if complexity = .enterprise ∨ complexity = .complex then
    build_complex_agents loads last_message task_description complexity
  else
    build_simple_agents loads last_message task_description complexity

/-- `max_rounds = min(30, max(10, len(agent_list) * 4))` (line 566). -/
def max_rounds (teamSize : ℕ) : ℕ :=
  min 30 (max 10 (teamSize * 4))

/-- Written from the spec's words (for the refinement claim C9):
`rounds = clamp(teamSize * 4, 10, 30)`. -/
def clampSpec (x lo hi : ℕ) : ℕ :=
  min hi (max lo x)

/-!
## Adjustment-event traces (for claims about `record_success` / `record_error`)
-/

/-- One ceiling-adjustment call: `record_success` or `record_error`. -/
inductive AdjustEvent where
  | succ
  | err (msg : Chars) (now : ℚ)

/-- Apply one adjustment event to the rate manager. -/
def applyAdjust (s : RateLimitManager) : AdjustEvent → RateLimitManager
  | .succ => s.record_success
  | .err m t => s.record_error m t

/-- Apply a finite sequence of adjustment events. -/
def applyAdjusts (s : RateLimitManager) (es : List AdjustEvent) : RateLimitManager :=
  es.foldl applyAdjust s

/-- `record_success` and `record_error` keep `min_rpm` and `max_rpm` fixed. -/
theorem applyAdjust_fixed (s : RateLimitManager) (e : AdjustEvent) :
    (applyAdjust s e).min_rpm = s.min_rpm ∧ (applyAdjust s e).max_rpm = s.max_rpm := by
  cases e <;>
    simp only [applyAdjust, RateLimitManager.record_success,
      RateLimitManager.record_error] <;>
    split <;> exact ⟨rfl, rfl⟩

/-- One adjustment event preserves `min_rpm ≤ current_rpm ≤ max_rpm`. -/
theorem applyAdjust_bounds (s : RateLimitManager) (e : AdjustEvent)
    (h1 : s.min_rpm ≤ s.current_rpm) (h2 : s.current_rpm ≤ s.max_rpm) :
    (applyAdjust s e).min_rpm ≤ (applyAdjust s e).current_rpm ∧
      (applyAdjust s e).current_rpm ≤ (applyAdjust s e).max_rpm := by
  cases e <;>
    simp only [applyAdjust, RateLimitManager.record_success,
      RateLimitManager.record_error] <;>
    split <;> simp_all <;> omega

/-- A sequence of adjustment events preserves the ceiling bounds. -/
theorem applyAdjusts_bounds (es : List AdjustEvent) :
    ∀ s : RateLimitManager, s.min_rpm ≤ s.current_rpm → s.current_rpm ≤ s.max_rpm →
      (applyAdjusts s es).min_rpm ≤ (applyAdjusts s es).current_rpm ∧
        (applyAdjusts s es).current_rpm ≤ (applyAdjusts s es).max_rpm := by
  induction es with
  | nil => intro s h1 h2; exact ⟨h1, h2⟩
  | cons e rest ih =>
    intro s h1 h2
    have hb := applyAdjust_bounds s e h1 h2
    simpa [applyAdjusts, List.foldl] using ih (applyAdjust s e) hb.1 hb.2

/-- C2: for a `RateLimitManager` constructed with its ceiling `current_rpm`
initially inside `[min_rpm, max_rpm]`, after any finite sequence of
`record_success` and `record_error` calls the ceiling still satisfies
`min_rpm ≤ current_rpm ≤ max_rpm`. -/
theorem claim_C2_ceiling_within_bounds (base_rpm : ℤ) (is_paid_tier : Bool)
    (es : List AdjustEvent)
    (h1 : (RateLimitManager.init base_rpm is_paid_tier).min_rpm ≤
          (RateLimitManager.init base_rpm is_paid_tier).current_rpm)
    (h2 : (RateLimitManager.init base_rpm is_paid_tier).current_rpm ≤
          (RateLimitManager.init base_rpm is_paid_tier).max_rpm) :
    (applyAdjusts (RateLimitManager.init base_rpm is_paid_tier) es).min_rpm ≤
      (applyAdjusts (RateLimitManager.init base_rpm is_paid_tier) es).current_rpm ∧
    (applyAdjusts (RateLimitManager.init base_rpm is_paid_tier) es).current_rpm ≤
      (applyAdjusts (RateLimitManager.init base_rpm is_paid_tier) es).max_rpm :=
  applyAdjusts_bounds es _ h1 h2

/-- Witness for C2 at `base_rpm = 8`, free tier, one success then one error. -/
theorem claim_C2_ceiling_within_bounds_witness :
    ((RateLimitManager.init 8 false).min_rpm ≤
      (RateLimitManager.init 8 false).current_rpm) ∧
    ((RateLimitManager.init 8 false).current_rpm ≤
      (RateLimitManager.init 8 false).max_rpm) ∧
    ((applyAdjusts (RateLimitManager.init 8 false)
        [AdjustEvent.succ, AdjustEvent.err "429".toList 0]).min_rpm ≤
      (applyAdjusts (RateLimitManager.init 8 false)
        [AdjustEvent.succ, AdjustEvent.err "429".toList 0]).current_rpm ∧
     (applyAdjusts (RateLimitManager.init 8 false)
        [AdjustEvent.succ, AdjustEvent.err "429".toList 0]).current_rpm ≤
      (applyAdjusts (RateLimitManager.init 8 false)
        [AdjustEvent.succ, AdjustEvent.err "429".toList 0]).max_rpm) :=
  ⟨by decide, by decide,
   claim_C2_ceiling_within_bounds 8 false
     [AdjustEvent.succ, AdjustEvent.err "429".toList 0] (by decide) (by decide)⟩

/-- C3 (amended): for every state whose consecutive-error counter
`error_count` is 0, after exactly 3 `record_error` calls with no
intervening `record_success` the ceiling becomes
`max (current_rpm - 2) min_rpm` (a decrease by exactly 2, clamped below at
`min_rpm`) and the error counter is reset to 0. -/
theorem claim_C3_three_errors_decrease (s : RateLimitManager) (m1 m2 m3 : Chars)
    (t1 t2 t3 : ℚ) (h : s.error_count = 0) :
    (((s.record_error m1 t1).record_error m2 t2).record_error m3 t3).current_rpm
        = max (s.current_rpm - 2) s.min_rpm ∧
    (((s.record_error m1 t1).record_error m2 t2).record_error m3 t3).error_count
        = 0 := by
  simp [RateLimitManager.record_error, h]

/-- Witness for C3 (amended) at the freshly constructed state. -/
theorem claim_C3_three_errors_decrease_witness :
    (RateLimitManager.init 8 false).error_count = 0 ∧
    ((((RateLimitManager.init 8 false).record_error "429".toList 0).record_error
        "429".toList 1).record_error "429".toList 2).current_rpm
      = max ((RateLimitManager.init 8 false).current_rpm - 2)
          (RateLimitManager.init 8 false).min_rpm ∧
    ((((RateLimitManager.init 8 false).record_error "429".toList 0).record_error
        "429".toList 1).record_error "429".toList 2).error_count = 0 :=
  ⟨by decide,
   (claim_C3_three_errors_decrease (RateLimitManager.init 8 false)
      "429".toList "429".toList "429".toList 0 1 2 (by decide)).1,
   (claim_C3_three_errors_decrease (RateLimitManager.init 8 false)
      "429".toList "429".toList "429".toList 0 1 2 (by decide)).2⟩

/-- A reachable state with `error_count = 2` (two recorded errors after
construction). -/
def c3_base : RateLimitManager :=
  ((RateLimitManager.init 8 false).record_error "429".toList 0).record_error
    "429".toList 0

/-- C3 counterexample: from the reachable state `c3_base` (which has
`error_count = 2`), after exactly 3 consecutive `record_error` calls the
error counter is 2, not 0 as the claim states for every state (the
cumulative counter triggers on the first of the three calls and then counts
the remaining two). -/
theorem claim_C3_counterexample :
    c3_base.error_count = 2 ∧
    ¬ ((((c3_base.record_error "429".toList 0).record_error "429".toList
          0).record_error "429".toList 0).error_count = 0) := by
  decide

/-- C9: the conversation round budget equals
`clamp(teamSize * 4, 10, 30) = min 30 (max 10 (teamSize * 4))` and is
always within `[10, 30]`. -/
theorem claim_C9_round_budget (teamSize : ℕ) :
    max_rounds teamSize = clampSpec (teamSize * 4) 10 30 ∧
    10 ≤ max_rounds teamSize ∧ max_rounds teamSize ≤ 30 := by
  unfold max_rounds clampSpec
  omega

/-- C7: `analyze_complexity` is a pure function of the task text that tests
the lower-cased text against enterprise-, complex- and medium-signal
keyword sets in that priority order (first match wins), with word-count
overrides: more than 100 words forces Enterprise, more than 50 forces at
least Complex, more than 20 forces at least Medium, and absence of any
signal with at most 20 words yields Simple. -/
theorem claim_C7_classifier (t : Chars) :
    (anyKeyword enterprise_keywords (lowerChars t) = true →
      analyze_complexity t = .enterprise) ∧
    (anyKeyword complex_keywords (lowerChars t) = true →
      2 ≤ (analyze_complexity t).rank) ∧
    (anyKeyword medium_keywords (lowerChars t) = true →
      1 ≤ (analyze_complexity t).rank) ∧
    (100 < wordCount t → analyze_complexity t = .enterprise) ∧
    (50 < wordCount t → 2 ≤ (analyze_complexity t).rank) ∧
    (20 < wordCount t → 1 ≤ (analyze_complexity t).rank) ∧
    (anyKeyword enterprise_keywords (lowerChars t) = false →
      anyKeyword complex_keywords (lowerChars t) = true → wordCount t ≤ 100 →
      analyze_complexity t = .complex) ∧
    (anyKeyword enterprise_keywords (lowerChars t) = false →
      anyKeyword complex_keywords (lowerChars t) = false →
      anyKeyword medium_keywords (lowerChars t) = true → wordCount t ≤ 50 →
      analyze_complexity t = .medium) ∧
    (anyKeyword enterprise_keywords (lowerChars t) = false →
      anyKeyword complex_keywords (lowerChars t) = false →
      anyKeyword medium_keywords (lowerChars t) = false → wordCount t ≤ 20 →
      analyze_complexity t = .simple) := by
  have heq : analyze_complexity t =
      if anyKeyword enterprise_keywords (lowerChars t)
          || decide (100 < wordCount t) then .enterprise
      else if anyKeyword complex_keywords (lowerChars t)
          || decide (50 < wordCount t) then .complex
      else if anyKeyword medium_keywords (lowerChars t)
          || decide (20 < wordCount t) then .medium
      else .simple := rfl
  refine ⟨?_, ?_, ?_, ?_, ?_, ?_, ?_, ?_, ?_⟩
  · intro h; simp [heq, h]
  · intro h
    rw [heq]
    by_cases h1 : (anyKeyword enterprise_keywords (lowerChars t)
        || decide (100 < wordCount t)) = true
    · simp [h1, TaskComplexity.rank]
    · simp [h1, h, TaskComplexity.rank]
  · intro h
    rw [heq]
    by_cases h1 : (anyKeyword enterprise_keywords (lowerChars t)
        || decide (100 < wordCount t)) = true
    · simp [h1, TaskComplexity.rank]
    · by_cases h2 : (anyKeyword complex_keywords (lowerChars t)
          || decide (50 < wordCount t)) = true
      · simp [h1, h2, TaskComplexity.rank]
      · simp [h1, h2, h, TaskComplexity.rank]
  · intro h; simp [heq, h]
  · intro h
    rw [heq]
    by_cases h1 : (anyKeyword enterprise_keywords (lowerChars t)
        || decide (100 < wordCount t)) = true
    · simp [h1, TaskComplexity.rank]
    · simp [h1, h, TaskComplexity.rank]
  · intro h
    rw [heq]
    by_cases h1 : (anyKeyword enterprise_keywords (lowerChars t)
        || decide (100 < wordCount t)) = true
    · simp [h1, TaskComplexity.rank]
    · by_cases h2 : (anyKeyword complex_keywords (lowerChars t)
          || decide (50 < wordCount t)) = true
      · simp [h1, h2, TaskComplexity.rank]
      · simp [h1, h2, h, TaskComplexity.rank]
  · intro he hc hw
    have hw' : ¬ (100 < wordCount t) := by omega
    simp [heq, he, hc, hw']
  · intro he hc hm hw
    have h100 : ¬ (100 < wordCount t) := by omega
    have h50 : ¬ (50 < wordCount t) := by omega
    simp [heq, he, hc, hm, h100, h50]
  · intro he hc hm hw
    have h100 : ¬ (100 < wordCount t) := by omega
    have h50 : ¬ (50 < wordCount t) := by omega
    have h20 : ¬ (20 < wordCount t) := by omega
    simp [heq, he, hc, hm, h100, h50, h20]

/-- A wrapped call that always raises an error whose message carries both
the throttling marker `429` and the quota marker `QUOTA_EXCEEDED`. -/
def funcBothMarkers : ℕ → Except Chars ℕ :=
  fun _ => .error "429 QUOTA_EXCEEDED: check billing".toList

/-- A fixed timing environment: every attempt sees `time.time() = 0` and
jitter 2. -/
def envZero : ℕ → ℚ × ℚ := fun _ => (0, 2)

/-- C4 counterexample: a call whose every invocation raises an error whose
message contains the billing/quota marker `QUOTA_EXCEEDED` (here together
with `429`) is retried the full 5 attempts and fails with the
rate-limit-exhausted exception, not the immediate quota failure with one
attempt: the `429` branch is tested first, so the quota branch is never
reached. -/
theorem claim_C4_counterexample :
    (execute_with_retry funcBothMarkers envZero (RateLimitManager.init 8 false)).calls
      = 5 ∧
    (execute_with_retry funcBothMarkers envZero (RateLimitManager.init 8 false)).outcome
      = RetryOutcome.raised msgRateExceeded ∧
    ¬ ((execute_with_retry funcBothMarkers envZero
        (RateLimitManager.init 8 false)).outcome = RetryOutcome.raised msgQuota) := by
  decide

/-- C4 (amended): if the first invocation raises an error whose message
contains the quota marker `QUOTA_EXCEEDED` and contains neither throttling
marker (`429`, `RESOURCE_EXHAUSTED`), `execute_with_retry` fails
immediately with the `API quota exceeded` exception, performs exactly one
underlying call attempt, and never retries (no success and no error is
recorded on the rate manager). -/
theorem claim_C4_quota_immediate {α : Type} (func : ℕ → Except Chars α)
    (env : ℕ → ℚ × ℚ) (s : RateLimitManager) (m : Chars)
    (hrpm : 1 ≤ s.current_rpm)
    (hf : func 0 = .error m)
    (h429 : hasSub marker429 m = false)
    (hres : hasSub markerResource m = false)
    (hq : hasSub markerQuota m = true) :
    (execute_with_retry func env s).outcome = RetryOutcome.raised msgQuota ∧
    (execute_with_retry func env s).calls = 1 ∧
    (execute_with_retry func env s).succCalls = 0 ∧
    (execute_with_retry func env s).errCalls = 0 := by
  simp [execute_with_retry, retryLoop, hf, h429, hres, hq]

/-- Witness for C4 (amended) on a pure quota error message. -/
theorem claim_C4_quota_immediate_witness :
    (1 ≤ (RateLimitManager.init 8 false).current_rpm) ∧
    ((fun _ : ℕ => (Except.error "QUOTA_EXCEEDED: check billing".toList :
        Except Chars ℕ)) 0 = .error "QUOTA_EXCEEDED: check billing".toList) ∧
    (hasSub marker429 "QUOTA_EXCEEDED: check billing".toList = false) ∧
    (hasSub markerResource "QUOTA_EXCEEDED: check billing".toList
      = false) ∧
    (hasSub markerQuota "QUOTA_EXCEEDED: check billing".toList
      = true) ∧
    ((execute_with_retry
        (fun _ : ℕ => (Except.error "QUOTA_EXCEEDED: check billing".toList :
          Except Chars ℕ))
        envZero (RateLimitManager.init 8 false)).outcome
        = RetryOutcome.raised msgQuota ∧
     (execute_with_retry
        (fun _ : ℕ => (Except.error "QUOTA_EXCEEDED: check billing".toList :
          Except Chars ℕ))
        envZero (RateLimitManager.init 8 false)).calls = 1 ∧
     (execute_with_retry
        (fun _ : ℕ => (Except.error "QUOTA_EXCEEDED: check billing".toList :
          Except Chars ℕ))
        envZero (RateLimitManager.init 8 false)).succCalls = 0 ∧
     (execute_with_retry
        (fun _ : ℕ => (Except.error "QUOTA_EXCEEDED: check billing".toList :
          Except Chars ℕ))
        envZero (RateLimitManager.init 8 false)).errCalls = 0) :=
  ⟨by decide, rfl, by decide, by decide, by decide,
   claim_C4_quota_immediate
     (fun _ : ℕ => (Except.error "QUOTA_EXCEEDED: check billing".toList :
       Except Chars ℕ))
     envZero (RateLimitManager.init 8 false)
     "QUOTA_EXCEEDED: check billing".toList
     (by decide) rfl (by decide) (by decide) (by decide)⟩

/-- C5: if the wrapped call raises throttling-marker errors (`429` or
`RESOURCE_EXHAUSTED` in the message) on its first 2 invocations and
succeeds on the 3rd, `execute_with_retry` returns the success result, the
rate manager records exactly 1 success (`record_success`) and exactly 2
errors (`record_error`), and exactly 3 underlying call attempts are made.
The `current_rpm`/`min_rpm` lower bounds exclude the states on which the
Python original would divide by zero in `wait_if_needed`. -/
theorem claim_C5_throttle_then_success {α : Type} (func : ℕ → Except Chars α)
    (env : ℕ → ℚ × ℚ) (s : RateLimitManager) (m0 m1 : Chars) (a : α)
    (hrpm : 1 ≤ s.current_rpm) (hmin : 1 ≤ s.min_rpm)
    (hf0 : func 0 = .error m0)
    (hm0 : (hasSub marker429 m0 || hasSub markerResource m0) = true)
    (hf1 : func 1 = .error m1)
    (hm1 : (hasSub marker429 m1 || hasSub markerResource m1) = true)
    (hf2 : func 2 = .ok a) :
    (execute_with_retry func env s).outcome = RetryOutcome.ok a ∧
    (execute_with_retry func env s).succCalls = 1 ∧
    (execute_with_retry func env s).errCalls = 2 ∧
    (execute_with_retry func env s).calls = 3 := by
  simp [execute_with_retry, retryLoop, hf0, hf1, hf2, hm0, hm1]

/-- The wrapped call of the C5 witness: throttled twice, then succeeds. -/
def funcThrottleTwice : ℕ → Except Chars ℕ :=
  fun i => if i < 2 then .error "429 RESOURCE_EXHAUSTED".toList else .ok 7

/-- Witness for C5 at a concrete throttled-then-successful call. -/
theorem claim_C5_throttle_then_success_witness :
    (1 ≤ (RateLimitManager.init 8 false).current_rpm) ∧
    (1 ≤ (RateLimitManager.init 8 false).min_rpm) ∧
    (funcThrottleTwice 0 = .error "429 RESOURCE_EXHAUSTED".toList) ∧
    ((hasSub marker429 "429 RESOURCE_EXHAUSTED".toList
      || hasSub markerResource "429 RESOURCE_EXHAUSTED".toList)
      = true) ∧
    (funcThrottleTwice 1 = .error "429 RESOURCE_EXHAUSTED".toList) ∧
    (funcThrottleTwice 2 = .ok 7) ∧
    ((execute_with_retry funcThrottleTwice envZero
        (RateLimitManager.init 8 false)).outcome = RetryOutcome.ok 7 ∧
     (execute_with_retry funcThrottleTwice envZero
        (RateLimitManager.init 8 false)).succCalls = 1 ∧
     (execute_with_retry funcThrottleTwice envZero
        (RateLimitManager.init 8 false)).errCalls = 2 ∧
     (execute_with_retry funcThrottleTwice envZero
        (RateLimitManager.init 8 false)).calls = 3) :=
  ⟨by decide, by decide, rfl, by decide, rfl, rfl,
   claim_C5_throttle_then_success funcThrottleTwice envZero
     (RateLimitManager.init 8 false)
     "429 RESOURCE_EXHAUSTED".toList "429 RESOURCE_EXHAUSTED".toList 7
     (by decide) (by decide) rfl (by decide) rfl (by decide) rfl⟩

/-- Every run of the retry loop started at `attempt + fuel = 5`,
`attempt ≤ 4` ends in a raised exception or in a result the wrapped call
produced; the `retNone` exhaustion value is never reached. -/
theorem retryLoop_no_retNone {α : Type} (func : ℕ → Except Chars α)
    (env : ℕ → ℚ × ℚ) :
    ∀ fuel attempt s nc ns ne, attempt + fuel = 5 → attempt ≤ 4 →
      (∃ msg, (retryLoop func env fuel attempt s nc ns ne).outcome
          = RetryOutcome.raised msg) ∨
      (∃ i a, attempt ≤ i ∧ i < 5 ∧ func i = .ok a ∧
        (retryLoop func env fuel attempt s nc ns ne).outcome
          = RetryOutcome.ok a) := by
  intro fuel
  induction fuel with
  | zero =>
    intro attempt s nc ns ne h5 h4
    omega
  | succ fuel ih =>
    intro attempt s nc ns ne h5 h4
    rw [retryLoop]
    cases hf : func attempt with
    | ok a =>
      right
      exact ⟨attempt, a, le_refl _, by omega, hf, rfl⟩
    | error e =>
      by_cases hb : (hasSub marker429 e
          || hasSub markerResource e) = true
      · by_cases ha : attempt < 4
        · simp only [hb, if_true, ha]
          rcases ih (attempt + 1) _ (nc + 1) ns (ne + 1) (by omega) (by omega)
            with ⟨msg, hm⟩ | ⟨i, b, hle, hlt, hfi, ho⟩
          · exact Or.inl ⟨msg, hm⟩
          · exact Or.inr ⟨i, b, by omega, hlt, hfi, ho⟩
        · simp only [hb, if_true, ha, if_false]
          exact Or.inl ⟨msgRateExceeded, rfl⟩
      · simp only [Bool.not_eq_true] at hb
        by_cases hq : hasSub markerQuota e = true
        · simp only [hb, Bool.false_eq_true, if_false, hq, if_true]
          exact Or.inl ⟨msgQuota, rfl⟩
        · simp only [Bool.not_eq_true] at hq
          by_cases ha : attempt < 2
          · simp only [hb, Bool.false_eq_true, if_false, hq, ha, if_true]
            rcases ih (attempt + 1) _ (nc + 1) ns ne (by omega) (by omega)
              with ⟨msg, hm⟩ | ⟨i, b, hle, hlt, hfi, ho⟩
            · exact Or.inl ⟨msg, hm⟩
            · exact Or.inr ⟨i, b, by omega, hlt, hfi, ho⟩
          · simp only [hb, Bool.false_eq_true, if_false, hq, ha]
            exact Or.inl ⟨e, rfl⟩

/-- C10: for every wrapped call and every error-message shape,
`execute_with_retry` either raises an exception or returns a result the
wrapped call produced on one of its at most 5 attempts; the trailing
`return None` after the retry loop is unreachable, so the caller never
observes `None`. -/
theorem claim_C10_no_none {α : Type} (func : ℕ → Except Chars α)
    (env : ℕ → ℚ × ℚ) (s : RateLimitManager) :
    (∃ msg, (execute_with_retry func env s).outcome = RetryOutcome.raised msg) ∨
    (∃ i a, i < 5 ∧ func i = .ok a ∧
      (execute_with_retry func env s).outcome = RetryOutcome.ok a) := by
  rcases retryLoop_no_retNone func env 5 0 s 0 0 0 (by omega) (by omega)
    with ⟨msg, hm⟩ | ⟨i, a, _, hlt, hfi, ho⟩
  · exact Or.inl ⟨msg, hm⟩
  · exact Or.inr ⟨i, a, hlt, hfi, ho⟩

/-- With no opening brace in the model response, `_get_agent_specifications`
raises `ValueError` (`json_start = -1`). -/
theorem get_specs_no_brace (loads : Chars → Except PyErr PyVal)
    (last_message : Chars) (hnb : strFind last_message '\x7b' = -1) :
    get_agent_specifications loads last_message
      = .error (.valueErr "No valid JSON found in response".toList) := by
  unfold get_agent_specifications
  rw [hnb]
  simp

/-- An index returned by `findIdx?` is inside the list. -/
theorem findIdxQ_lt_length (l : Chars) (p : Char → Bool) (i : ℕ)
    (h : l.findIdx? p = some i) : i < l.length := by
  have h1 : (l.findIdx? p).isSome = l.any p := List.findIdx?_isSome
  rw [h] at h1
  have h2 : ∃ x ∈ l, p x = true := by
    rw [← List.any_eq_true]
    exact h1.symm ▸ rfl
  have h3 := List.findIdx_lt_length_of_exists h2
  have h4 := List.findIdx_eq_findIdx? p l
  rw [h] at h4
  simp only [] at h4
  omega

/-- `json_end = rfind + 1` is never `-1` (`rfind` returns `-1` or a valid
index), so the source's `json_end != -1` test cannot fail. -/
theorem strRfind_add_one_ne (s : Chars) (c : Char) : strRfind s c + 1 ≠ -1 := by
  unfold strRfind
  cases hf : s.reverse.findIdx? (fun d => d == c) with
  | none =>
    simp only []
    decide
  | some i =>
    have hi : i < s.reverse.length := findIdxQ_lt_length _ _ _ hf
    rw [List.length_reverse] at hi
    simp only []
    intro hcon
    omega

/-- With an opening brace present, `_get_agent_specifications` hands the
extracted slice to `json.loads`. -/
theorem get_specs_some_brace (loads : Chars → Except PyErr PyVal)
    (last_message : Chars) (hb : strFind last_message '\x7b' ≠ -1) :
    get_agent_specifications loads last_message
      = loads (pySlice last_message (strFind last_message '\x7b')
          (strRfind last_message '\x7d' + 1)) := by
  unfold get_agent_specifications
  rw [if_pos]
  exact ⟨hb, strRfind_add_one_ne last_message '\x7d'⟩

/-- If some entry of the parsed agents list raises inside
`_create_agent_from_spec` (before its inner handler), the whole build loop
aborts with that exception. -/
theorem buildLoop_raises (task : Chars) :
    ∀ (specs : List PyVal) (acc : List AgentModel),
      (∃ sp ∈ specs, ∃ e', create_agent_from_spec sp task = .error e') →
      ∃ e, buildLoop task specs acc = .error e := by
  intro specs
  induction specs with
  | nil =>
    rintro acc ⟨sp, hsp, _⟩
    cases hsp
  | cons sp0 rest ih =>
    rintro acc ⟨sp, hsp, e', he'⟩
    cases hcr : create_agent_from_spec sp0 task with
    | error e0 => exact ⟨e0, by rw [buildLoop, hcr]⟩
    | ok a? =>
      rcases List.mem_cons.mp hsp with rfl | hmem
      · rw [hcr] at he'
        cases he'
      · cases a? with
        | none =>
          obtain ⟨e, he⟩ := ih acc ⟨sp, hmem, e', he'⟩
          exact ⟨e, by rw [buildLoop, hcr]; exact he⟩
        | some a =>
          obtain ⟨e, he⟩ := ih (acc ++ [a]) ⟨sp, hmem, e', he'⟩
          exact ⟨e, by rw [buildLoop, hcr]; exact he⟩

/-- C6 (amended): the builder never fails outward, and *any* raised error
in the spec-retrieval/materialization pipeline — a parse failure (in
particular a model response with no JSON braces), a malformed top-level
value, or an entry that raises (e.g. one missing its `role` or
`system_message` field) — yields the deterministic, non-empty fallback
roster sized by tier: 1 agent for Simple/Medium, 3 for Complex, 3 + 2
coordination agents for Enterprise.  (The unamended claim also asserted
that an *empty parsed result* triggers the fallback; the counterexample
shows it instead yields an empty roster.) -/
theorem claim_C6_fallback_roster (loads : Chars → Except PyErr PyVal)
    (last_message task_description : Chars) :
    ((∃ e, specPipeline loads last_message task_description = .error e) →
      analyze_task_and_build_agents loads last_message task_description ≠ [] ∧
      (analyze_task_and_build_agents loads last_message task_description).length
        = (match analyze_complexity task_description with
           | .simple => 1
           | .medium => 1
           | .complex => 3
           | .enterprise => 5)) ∧
    (strFind last_message '\x7b' = -1 →
      ∃ e, specPipeline loads last_message task_description = .error e) ∧
    (∀ e', loads (pySlice last_message (strFind last_message '\x7b')
        (strRfind last_message '\x7d' + 1)) = .error e' →
      ∃ e, specPipeline loads last_message task_description = .error e) ∧
    (∀ v, loads (pySlice last_message (strFind last_message '\x7b')
        (strRfind last_message '\x7d' + 1)) = .ok v →
      (∀ kvs, v ≠ PyVal.dict kvs) →
      ∃ e, specPipeline loads last_message task_description = .error e) ∧
    (∀ kvs specs, loads (pySlice last_message (strFind last_message '\x7b')
        (strRfind last_message '\x7d' + 1)) = .ok (PyVal.dict kvs) →
      dictGet kvs "agents".toList = some (PyVal.list specs) →
      (∃ sp ∈ specs, ∃ e', create_agent_from_spec sp task_description = .error e') →
      ∃ e, specPipeline loads last_message task_description = .error e) ∧
    (∀ kvs2, (dictGet kvs2 "role".toList = Option.none ∨
        dictGet kvs2 "system_message".toList = Option.none) →
      ∃ e', create_agent_from_spec (PyVal.dict kvs2) task_description
        = .error e') := by
  refine ⟨?_, ?_, ?_, ?_, ?_, ?_⟩
  · -- any raised error yields the tier-sized fallback roster
    rintro ⟨e, herr⟩
    unfold analyze_task_and_build_agents build_simple_agents build_complex_agents
    cases hc : analyze_complexity task_description <;>
      simp [hc, herr, create_fallback_simple_agents,
        create_fallback_complex_agents, create_coordination_agents]
  · -- no opening brace: ValueError
    intro hnb
    refine ⟨.valueErr "No valid JSON found in response".toList, ?_⟩
    unfold specPipeline
    rw [get_specs_no_brace loads last_message hnb]
    rfl
  · -- json.loads fails on the extracted slice
    intro e' hl
    by_cases hnb : strFind last_message '\x7b' = -1
    · refine ⟨.valueErr "No valid JSON found in response".toList, ?_⟩
      unfold specPipeline
      rw [get_specs_no_brace loads last_message hnb]
      rfl
    · refine ⟨e', ?_⟩
      unfold specPipeline
      rw [get_specs_some_brace loads last_message hnb, hl]
      rfl
  · -- parsed value is not a dict: AttributeError on .get
    intro v hl hv
    by_cases hnb : strFind last_message '\x7b' = -1
    · refine ⟨.valueErr "No valid JSON found in response".toList, ?_⟩
      unfold specPipeline
      rw [get_specs_no_brace loads last_message hnb]
      rfl
    · cases v with
      | dict kvs => exact absurd rfl (hv kvs)
      | str s =>
        refine ⟨PyErr.attrErr, ?_⟩
        unfold specPipeline
        rw [get_specs_some_brace loads last_message hnb, hl]
        rfl
      | bool b =>
        refine ⟨PyErr.attrErr, ?_⟩
        unfold specPipeline
        rw [get_specs_some_brace loads last_message hnb, hl]
        rfl
      | int n =>
        refine ⟨PyErr.attrErr, ?_⟩
        unfold specPipeline
        rw [get_specs_some_brace loads last_message hnb, hl]
        rfl
      | list xs =>
        refine ⟨PyErr.attrErr, ?_⟩
        unfold specPipeline
        rw [get_specs_some_brace loads last_message hnb, hl]
        rfl
      | none =>
        refine ⟨PyErr.attrErr, ?_⟩
        unfold specPipeline
        rw [get_specs_some_brace loads last_message hnb, hl]
        rfl
  · -- an entry that raises aborts the loop: the whole try-block raises
    rintro kvs specs hl hag ⟨sp, hsp, e', he'⟩
    by_cases hnb : strFind last_message '\x7b' = -1
    · refine ⟨.valueErr "No valid JSON found in response".toList, ?_⟩
      unfold specPipeline
      rw [get_specs_no_brace loads last_message hnb]
      rfl
    · obtain ⟨e, he⟩ := buildLoop_raises task_description specs []
        ⟨sp, hsp, e', he'⟩
      refine ⟨e, ?_⟩
      unfold specPipeline
      rw [get_specs_some_brace loads last_message hnb, hl]
      show buildFromSpecs (PyVal.dict kvs) task_description = Except.error e
      unfold buildFromSpecs
      simp only []
      rw [hag]
      exact he
  · -- a missing role/system_message field raises a KeyError
    intro kvs2 hmiss
    rcases hmiss with hrole | hsys
    · refine ⟨.keyErr "role".toList, ?_⟩
      unfold create_agent_from_spec
      simp only []
      rw [hrole]
    · cases hrole2 : dictGet kvs2 "role".toList with
      | none =>
        refine ⟨.keyErr "role".toList, ?_⟩
        unfold create_agent_from_spec
        simp only []
        rw [hrole2]
      | some rv =>
        refine ⟨.keyErr "system_message".toList, ?_⟩
        unfold create_agent_from_spec
        simp only []
        rw [hrole2, hsys]

/-- Witness for C6 (amended) at a brace-free response: the pipeline raises
and the roster is the 1-agent Simple fallback. -/
theorem claim_C6_fallback_roster_witness :
    (∃ e, specPipeline (fun _ => .ok PyVal.none) "no json here".toList
        "hi".toList = .error e) ∧
    (analyze_task_and_build_agents (fun _ => .ok PyVal.none) "no json here".toList
        "hi".toList ≠ [] ∧
     (analyze_task_and_build_agents (fun _ => .ok PyVal.none) "no json here".toList
        "hi".toList).length
       = (match analyze_complexity "hi".toList with
          | .simple => 1
          | .medium => 1
          | .complex => 3
          | .enterprise => 5)) :=
  ⟨(claim_C6_fallback_roster (fun _ => .ok PyVal.none) "no json here".toList
      "hi".toList).2.1 (by decide),
   (claim_C6_fallback_roster (fun _ => .ok PyVal.none) "no json here".toList
      "hi".toList).1
     ((claim_C6_fallback_roster (fun _ => .ok PyVal.none) "no json here".toList
        "hi".toList).2.1 (by decide))⟩

/-- Models `json.loads` on the response text `\x7b"agents": []\x7d`: the
parse succeeds with an empty agents list. -/
def loadsEmptyAgents : Chars → Except PyErr PyVal :=
  fun _ => .ok (.dict [("agents".toList, .list [])])

/-- A response text whose extracted JSON is the empty-agents object. -/
def respEmptyAgents : Chars := "\x7b \"agents\": [] \x7d".toList

/-- C6 counterexample: a successfully parsed response with an *empty* agents
list yields an empty roster, not the non-empty fallback roster that the
claim promises for an empty parsed result (the fallback runs only when an
exception is raised, and an empty list raises none). -/
theorem claim_C6_counterexample :
    build_simple_agents loadsEmptyAgents respEmptyAgents "task".toList
        TaskComplexity.simple = [] ∧
    create_fallback_simple_agents "task".toList ≠ [] := by
  decide

/-- A parsed spec entry is well-formed when it is a dict with `role` and
`system_message` present, a joinable capability list, and a string `name`:
on such entries `_create_agent_from_spec` cannot raise and cannot return
`None`. -/
def goodSpec : PyVal → Bool
  | .dict kvs =>
    (match dictGet kvs "role".toList with
      | some _ => true
      | Option.none => false) &&
    (match dictGet kvs "system_message".toList with
      | some _ => true
      | Option.none => false) &&
    (match joinComma ((dictGet kvs "capabilities".toList).getD (PyVal.list [])) with
      | .ok _ => true
      | .error _ => false) &&
    (match dictGet kvs "name".toList with
      | some (.str _) => true
      | _ => false)
  | _ => false

/-- The `name` field of a parsed spec entry (empty for ill-formed entries). -/
def specNameOf : PyVal → Chars
  | .dict kvs =>
    (match dictGet kvs "name".toList with
      | some (.str s) => s
      | _ => [])
  | _ => []

/-- On a well-formed spec, `_create_agent_from_spec` produces an agent whose
name is exactly the entry's `name` value. -/
theorem create_agent_from_spec_good (kvs : List (Chars × PyVal)) (task : Chars)
    (h : goodSpec (.dict kvs) = true) :
    ∃ a, create_agent_from_spec (.dict kvs) task = .ok (some a) ∧
      a.agentName = specNameOf (.dict kvs) := by
  unfold goodSpec at h
  simp only [Bool.and_eq_true] at h
  obtain ⟨⟨⟨hrole, hsys⟩, hcaps⟩, hname⟩ := h
  cases hr : dictGet kvs "role".toList with
  | none => rw [hr] at hrole; simp at hrole
  | some rv =>
    cases hs : dictGet kvs "system_message".toList with
    | none => rw [hs] at hsys; simp at hsys
    | some sv =>
      cases hcj : joinComma ((dictGet kvs "capabilities".toList).getD (PyVal.list [])) with
      | error e => rw [hcj] at hcaps; simp at hcaps
      | ok caps =>
        cases hn : dictGet kvs "name".toList with
        | none => rw [hn] at hname; simp at hname
        | some nv =>
          cases nv with
          | str nm =>
            unfold create_agent_from_spec specNameOf
            simp only [hr, hs, hcj, hn]
            by_cases hneeds :
                truthy ((dictGet kvs "needs_coding".toList).getD (PyVal.bool false))
                  = true
            · rw [if_pos hneeds]
              exact ⟨_, rfl, rfl⟩
            · rw [if_neg hneeds]
              exact ⟨_, rfl, rfl⟩
          | bool b => rw [hn] at hname; simp at hname
          | int n => rw [hn] at hname; simp at hname
          | list xs => rw [hn] at hname; simp at hname
          | dict kvs2 => rw [hn] at hname; simp at hname
          | none => rw [hn] at hname; simp at hname

/-- On a list of well-formed specs, the build loop succeeds and the roster's
names are exactly the specs' names in order (duplicates included). -/
theorem buildLoop_good (task : Chars) :
    ∀ (specs : List PyVal) (acc : List AgentModel),
      (∀ sp ∈ specs, goodSpec sp = true) →
      ∃ roster, buildLoop task specs acc = .ok roster ∧
        roster.map AgentModel.agentName
          = acc.map AgentModel.agentName ++ specs.map specNameOf := by
  intro specs
  induction specs with
  | nil => intro acc h; exact ⟨acc, rfl, by simp⟩
  | cons sp rest ih =>
    intro acc h
    have hsp := h sp (by simp)
    cases sp with
    | dict kvs =>
      obtain ⟨a, ha, hna⟩ := create_agent_from_spec_good kvs task hsp
      obtain ⟨roster, hr, hmap⟩ :=
        ih (acc ++ [a]) (fun x hx => h x (by simp [hx]))
      refine ⟨roster, ?_, ?_⟩
      · rw [buildLoop, ha]; exact hr
      · simp [hmap, hna]
    | str s => simp [goodSpec] at hsp
    | bool b => simp [goodSpec] at hsp
    | int n => simp [goodSpec] at hsp
    | list xs => simp [goodSpec] at hsp
    | none => simp [goodSpec] at hsp

/-- C8 (amended): parsed roster entries are materialized independently with
no uniqueness (or non-emptiness) check on names: on well-formed entries the
build loop succeeds and the roster's agent names are exactly the parsed
entries' names in order, duplicates included — a later duplicate is *not*
rejected and no fallback is taken for it. -/
theorem claim_C8_names_passed_through (task : Chars) (specs : List PyVal)
    (h : ∀ sp ∈ specs, goodSpec sp = true) :
    ∃ roster, buildLoop task specs [] = .ok roster ∧
      roster.map AgentModel.agentName = specs.map specNameOf := by
  obtain ⟨roster, hr, hm⟩ := buildLoop_good task specs [] h
  exact ⟨roster, hr, by simpa using hm⟩

/-- First duplicate-name spec entry (`Agent1`, researcher). -/
def specAgentDupA : PyVal :=
  .dict [("name".toList, .str "Agent1".toList),
         ("role".toList, .str "researcher".toList),
         ("system_message".toList, .str "Do research.".toList)]

/-- Second duplicate-name spec entry (`Agent1`, writer). -/
def specAgentDupB : PyVal :=
  .dict [("name".toList, .str "Agent1".toList),
         ("role".toList, .str "writer".toList),
         ("system_message".toList, .str "Write the report.".toList)]

/-- Models `json.loads` on a response whose agents list holds two entries
with the same name. -/
def loadsDup : Chars → Except PyErr PyVal :=
  fun _ => .ok (.dict [("agents".toList, .list [specAgentDupA, specAgentDupB])])

/-- A response text with braces, so extraction succeeds. -/
def respBraces : Chars := "\x7b\x7d".toList

/-- Witness for C8 (amended) at the two duplicate-name entries. -/
theorem claim_C8_names_passed_through_witness :
    (∀ sp ∈ [specAgentDupA, specAgentDupB], goodSpec sp = true) ∧
    (∃ roster,
      buildLoop "task".toList [specAgentDupA, specAgentDupB] [] = .ok roster ∧
      roster.map AgentModel.agentName
        = [specAgentDupA, specAgentDupB].map specNameOf) :=
  ⟨by decide,
   claim_C8_names_passed_through "task".toList [specAgentDupA, specAgentDupB]
     (by decide)⟩

/-- C8 counterexample: a parsed roster with two entries named `Agent1`
yields two agents both named `Agent1`: the later duplicate is not rejected
and no fallback path is taken for it, contradicting the claimed uniqueness
invariant. -/
theorem claim_C8_counterexample :
    (build_simple_agents loadsDup respBraces "task".toList
        TaskComplexity.simple).map AgentModel.agentName
      = ["Agent1".toList, "Agent1".toList] := by
  decide

/-!
## Claim C1: trailing-window admission bound

A run of one `RateLimitManager` is modelled as a world holding the manager,
the current wall clock, and a ghost log of admissions (the timestamp each
`wait_if_needed` call appended, paired with the ceiling `current_rpm` in
force at that moment).  Each event advances the clock by a nonnegative
delay `δ` before its call; `wait_if_needed`'s sleep advances the clock by
the returned wait time, exactly as `time.sleep` does.
-/

/-- A run state: the rate manager, the wall clock, and the ghost admission
log (appended timestamp, ceiling in force at that admission). -/
structure RLWorld where
  rl : RateLimitManager
  clock : ℚ
  admitted : List (ℚ × ℤ)

/-- One call on the rate limiter, with the wall-clock delay `δ ≥ 0` before
it; `wait` also carries the jitter drawn by `random.uniform(1, 3)`. -/
inductive RLEv where
  | wait (δ jitter : ℚ)
  | can (δ : ℚ)
  | succ (δ : ℚ)
  | err (δ : ℚ) (msg : Chars)

/-- Validity of an event: nonnegative delay, jitter within `[1, 3]`. -/
def validEv : RLEv → Bool
  | .wait δ j => decide (0 ≤ δ) && decide (1 ≤ j) && decide (j ≤ 3)
  | .can δ => decide (0 ≤ δ)
  | .succ δ => decide (0 ≤ δ)
  | .err δ _ => decide (0 ≤ δ)

/-- Whether the event is a `record_error` call. -/
def RLEv.isErrEv : RLEv → Bool
  | .err _ _ => true
  | _ => false

/-- Execute one event: advance the clock, perform the call; a `wait`
additionally advances the clock by the wait time and logs the appended
timestamp with the ceiling in force. -/
def RLStep (w : RLWorld) : RLEv → RLWorld
  | .wait δ j =>
    let now := w.clock + δ
    let r := w.rl.wait_if_needed now j
    { rl := r.2, clock := now + r.1,
      admitted := w.admitted ++ [(now + r.1, w.rl.current_rpm)] }
  | .can δ =>
    { w with rl := (w.rl.can_make_request (w.clock + δ)).2, clock := w.clock + δ }
  | .succ δ =>
    { w with rl := w.rl.record_success, clock := w.clock + δ }
  | .err δ m =>
    { w with rl := w.rl.record_error m (w.clock + δ), clock := w.clock + δ }

/-- Execute a sequence of events. -/
def RLRun (w : RLWorld) (es : List RLEv) : RLWorld := es.foldl RLStep w

/-- Number of timestamps of `ts` inside the trailing 60-second window ending
at `τ` (the same retention predicate the code prunes with). -/
def wcount (τ : ℚ) (ts : List ℚ) : ℕ := (pruneQ τ ts).length

/-- The claimed property of the admission log: at each admission, the number
of admitted timestamps inside the trailing 60-second window ending at that
admission's timestamp is at most the ceiling in force at that moment. -/
def admissionsBounded (ads : List (ℚ × ℤ)) : Prop :=
  ∀ i (h : i < ads.length),
    ((wcount (ads[i].1) ((ads.take (i + 1)).map Prod.fst) : ℤ) ≤ ads[i].2)

/-- Pruning twice at nondecreasing times equals pruning once at the later
time. -/
theorem pruneQ_pruneQ (τ now : ℚ) (h : now ≤ τ) (l : List ℚ) :
    pruneQ τ (pruneQ now l) = pruneQ τ l := by
  unfold pruneQ
  rw [List.filter_filter]
  apply List.filter_congr
  intro t ht
  by_cases hc : τ - t < 60
  · have hc2 : now - t < 60 := by linarith
    simp [hc, hc2]
  · simp [hc]

/-- `wcount` over an appended list splits. -/
theorem wcount_append (τ : ℚ) (l₁ l₂ : List ℚ) :
    wcount τ (l₁ ++ l₂) = wcount τ l₁ + wcount τ l₂ := by
  simp [wcount, pruneQ, List.filter_append]

/-- `wcount` is antitone in the window end. -/
theorem wcount_mono {τ τ' : ℚ} (h : τ ≤ τ') (l : List ℚ) :
    wcount τ' l ≤ wcount τ l := by
  calc wcount τ' l = (pruneQ τ' (pruneQ τ l)).length := by
        unfold wcount
        rw [pruneQ_pruneQ τ' τ h l]
    _ ≤ (pruneQ τ l).length := List.length_filter_le _ _
    _ = wcount τ l := rfl

/-- A filter misses at least the member it rejects. -/
theorem length_filter_lt_of_mem {α : Type} (p : α → Bool) (l : List α) (a : α)
    (ha : a ∈ l) (hpa : p a = false) : (l.filter p).length < l.length := by
  induction l with
  | nil => cases ha
  | cons b bs ih =>
    by_cases hpb : p b = true
    · rcases List.mem_cons.mp ha with rfl | hmem
      · rw [hpb] at hpa; cases hpa
      · have := ih hmem
        simp only [List.filter_cons, hpb, if_true, List.length_cons]
        omega
    · have hpb' : p b = false := by simpa using hpb
      have := List.length_filter_le p bs
      simp only [List.filter_cons, hpb', Bool.false_eq_true, if_false,
        List.length_cons]
      omega

/-- The fold computing `min(request_times)` lands in the list. -/
theorem listMin_aux_mem : ∀ (ts : List ℚ) (t : ℚ), ts.foldl min t ∈ t :: ts := by
  intro ts
  induction ts with
  | nil => intro t; simp
  | cons u us ih =>
    intro t
    have h := ih (min t u)
    show List.foldl min (min t u) us ∈ t :: u :: us
    rcases List.mem_cons.mp h with h | h
    · rw [h]
      rcases min_choice t u with hc | hc <;> rw [hc] <;> simp
    · simp [h]

/-- `min(request_times)` is a member of a nonempty list. -/
theorem listMin_mem (ts : List ℚ) (h : ts ≠ []) : listMin ts ∈ ts := by
  cases ts with
  | nil => cases h rfl
  | cons t ts => exact listMin_aux_mem ts t

/-- The invariant carried along an error-free run: the ceiling is positive;
for every window end at or after the clock, the admitted timestamps and
`request_times` agree inside the window (pruning only ever discards
timestamps older than 60 seconds); the trailing window at the clock holds
at most `current_rpm` admitted timestamps; and every logged admission
respected its ceiling. -/
def RLInv (w : RLWorld) : Prop :=
  1 ≤ w.rl.current_rpm ∧
  (∀ τ : ℚ, w.clock ≤ τ →
    wcount τ (w.admitted.map Prod.fst) = wcount τ w.rl.request_times) ∧
  ((wcount w.clock (w.admitted.map Prod.fst) : ℤ) ≤ w.rl.current_rpm) ∧
  admissionsBounded w.admitted

/-- Appending an admission that respects its ceiling preserves the bound. -/
theorem admissionsBounded_append {ads : List (ℚ × ℤ)} {x : ℚ × ℤ}
    (h : admissionsBounded ads)
    (hx : ((wcount x.1 ((ads ++ [x]).map Prod.fst)) : ℤ) ≤ x.2) :
    admissionsBounded (ads ++ [x]) := by
  intro i hi
  rcases Nat.lt_or_ge i ads.length with hlt | hge
  · have htake : (ads ++ [x]).take (i + 1) = ads.take (i + 1) :=
      List.take_append_of_le_length (by omega)
    have hget : (ads ++ [x])[i] = ads[i] := List.getElem_append_left hlt
    rw [htake, hget]
    exact h i hlt
  · have hlen : (ads ++ [x]).length = ads.length + 1 := by simp
    have hieq : i = ads.length := by omega
    subst hieq
    have hget : (ads ++ [x])[ads.length] = x := by
      rw [List.getElem_append_right (le_refl _)]
      simp
    have htake : (ads ++ [x]).take (ads.length + 1) = ads ++ [x] :=
      List.take_of_length_le (by simp)
    rw [htake, hget]
    exact hx


/-- `record_success` leaves the sliding window untouched. -/
theorem record_success_request_times (s : RateLimitManager) :
    (s.record_success).request_times = s.request_times := by
  simp only [RateLimitManager.record_success]
  split <;> rfl

/-- `record_success` never lowers the ceiling. -/
theorem record_success_rpm_le (s : RateLimitManager) :
    s.current_rpm ≤ (s.record_success).current_rpm := by
  simp only [RateLimitManager.record_success]
  split
  · rename_i hc
    simp only [Bool.and_eq_true, beq_iff_eq, decide_eq_true_eq] at hc
    show s.current_rpm ≤ min (s.current_rpm + 1) s.max_rpm
    omega
  · exact le_refl _

/-- The trailing window of a single fresh timestamp holds it. -/
theorem wcount_self (τ : ℚ) : wcount τ [τ] = 1 := by
  simp [wcount, pruneQ]


/-- Replace the sliding window of a manager (abbreviation for the record
update the source performs on `self.request_times`). -/
def withTimes (s : RateLimitManager) (ts : List ℚ) : RateLimitManager :=
  { s with request_times := ts }

/-- Projection of `withTimes`. -/
theorem withTimes_request_times (s : RateLimitManager) (ts : List ℚ) :
    (withTimes s ts).request_times = ts := rfl

/-- `withTimes` keeps the ceiling. -/
theorem withTimes_current_rpm (s : RateLimitManager) (ts : List ℚ) :
    (withTimes s ts).current_rpm = s.current_rpm := rfl

/-- The `wait_if_needed` invariant step, phrased over an arbitrary world
whose call happens at time `now ≥ clock`. -/
theorem RLInv_wait_aux (rl : RateLimitManager) (clock now j : ℚ)
    (ads : List (ℚ × ℤ)) (hnow : clock ≤ now) (hj1 : 1 ≤ j)
    (h1 : 1 ≤ rl.current_rpm)
    (h5 : ∀ τ : ℚ, clock ≤ τ →
      wcount τ (ads.map Prod.fst) = wcount τ rl.request_times)
    (h6 : (wcount clock (ads.map Prod.fst) : ℤ) ≤ rl.current_rpm)
    (h7 : admissionsBounded ads) :
    RLInv ⟨(rl.wait_if_needed now j).2,
           now + (rl.wait_if_needed now j).1,
           ads ++ [(now + (rl.wait_if_needed now j).1, rl.current_rpm)]⟩ := by
  have hcnt_now : wcount now (ads.map Prod.fst)
      = (pruneQ now rl.request_times).length := h5 now hnow
  have hcnt_le : ((pruneQ now rl.request_times).length : ℤ) ≤ rl.current_rpm := by
    rw [← hcnt_now]
    calc (wcount now (ads.map Prod.fst) : ℤ)
        ≤ (wcount clock (ads.map Prod.fst) : ℤ) := by
          exact_mod_cast wcount_mono hnow _
      _ ≤ rl.current_rpm := h6
  by_cases hok : (((pruneQ now rl.request_times).length : ℤ) < rl.current_rpm)
  · -- fast path: append `now`, wait 0
    have hr : rl.wait_if_needed now j
        = (0, withTimes rl (pruneQ now rl.request_times ++ [now])) := by
      unfold RateLimitManager.wait_if_needed RateLimitManager.can_make_request withTimes
      simp [hok]
    rw [hr]
    simp only [add_zero]
    refine ⟨h1, ?_, ?_, ?_⟩
    · intro τ hτ
      have hτ' : now ≤ τ := hτ
      show wcount τ ((ads ++ [(now, rl.current_rpm)]).map Prod.fst)
        = wcount τ (withTimes rl (pruneQ now rl.request_times ++ [now])).request_times
      rw [withTimes_request_times, List.map_append, wcount_append, wcount_append,
        h5 τ (le_trans hnow hτ')]
      have hpp : wcount τ (pruneQ now rl.request_times)
          = wcount τ rl.request_times := by
        unfold wcount
        rw [pruneQ_pruneQ τ now hτ']
      rw [hpp]
      rfl
    · show (wcount now ((ads ++ [(now, rl.current_rpm)]).map Prod.fst) : ℤ)
        ≤ (withTimes rl (pruneQ now rl.request_times ++ [now])).current_rpm
      rw [withTimes_current_rpm, List.map_append, wcount_append]
      have hone : wcount now
          ((([(now, rl.current_rpm)] : List (ℚ × ℤ))).map Prod.fst) = 1 := by
        simp only [List.map_cons, List.map_nil]
        exact wcount_self _
      rw [hone, hcnt_now]
      push_cast
      omega
    · apply admissionsBounded_append h7
      show (wcount now ((ads ++ [(now, rl.current_rpm)]).map Prod.fst) : ℤ)
        ≤ rl.current_rpm
      rw [List.map_append, wcount_append]
      have hone : wcount now
          ((([(now, rl.current_rpm)] : List (ℚ × ℤ))).map Prod.fst) = 1 := by
        simp only [List.map_cons, List.map_nil]
        exact wcount_self _
      rw [hone, hcnt_now]
      push_cast
      omega
  · -- slow path: sleep past the oldest retained timestamp, then append
    have hlen1 : 1 ≤ (pruneQ now rl.request_times).length := by
      by_contra hcon
      have h0 : (pruneQ now rl.request_times).length = 0 := by omega
      rw [h0] at hok
      push_cast at hok
      omega
    have hne' : pruneQ now rl.request_times ≠ [] := by
      intro h0
      rw [h0] at hlen1
      simp at hlen1
    have hmem : listMin (pruneQ now rl.request_times) ∈ pruneQ now rl.request_times :=
      listMin_mem _ hne'
    have hrecent : now - listMin (pruneQ now rl.request_times) < 60 :=
      of_decide_eq_true (List.mem_filter.mp hmem).2
    have hemp : (pruneQ now rl.request_times).isEmpty = false := by
      cases hpe : pruneQ now rl.request_times with
      | nil => exact absurd hpe hne'
      | cons a l => rfl
    have hr : rl.wait_if_needed now j
        = (60 - (now - listMin (pruneQ now rl.request_times)) + j,
           withTimes rl (pruneQ now rl.request_times
             ++ [now + (60 - (now - listMin (pruneQ now rl.request_times)) + j)])) := by
      unfold RateLimitManager.wait_if_needed RateLimitManager.can_make_request withTimes
      simp [hok, hemp]
    rw [hr]
    have hτa_now : now ≤ now + (60 - (now - listMin (pruneQ now rl.request_times)) + j) := by
      linarith
    have hold_out :
        (fun t => decide ((now + (60 - (now - listMin (pruneQ now rl.request_times)) + j)) - t < 60))
          (listMin (pruneQ now rl.request_times)) = false := by
      simp only
      apply decide_eq_false
      intro hcon
      have hcon2 : (60 : ℚ) + j < 60 := by linarith
      linarith
    have hstrict :
        (pruneQ (now + (60 - (now - listMin (pruneQ now rl.request_times)) + j))
          (pruneQ now rl.request_times)).length
        < (pruneQ now rl.request_times).length :=
      length_filter_lt_of_mem _ _ _ hmem hold_out
    have hwin : (wcount (now + (60 - (now - listMin (pruneQ now rl.request_times)) + j))
          (ads.map Prod.fst) : ℤ)
        ≤ rl.current_rpm - 1 := by
      rw [h5 _ (le_trans hnow hτa_now)]
      have hcc : wcount (now + (60 - (now - listMin (pruneQ now rl.request_times)) + j))
            rl.request_times
          = (pruneQ (now + (60 - (now - listMin (pruneQ now rl.request_times)) + j))
              (pruneQ now rl.request_times)).length := by
        unfold wcount
        rw [pruneQ_pruneQ _ now hτa_now]
      rw [hcc]
      omega
    refine ⟨h1, ?_, ?_, ?_⟩
    · intro τ hτ
      have hτ' : now + (60 - (now - listMin (pruneQ now rl.request_times)) + j) ≤ τ := hτ
      have hτnow : now ≤ τ := le_trans hτa_now hτ'
      show wcount τ ((ads
            ++ [(now + (60 - (now - listMin (pruneQ now rl.request_times)) + j),
                 rl.current_rpm)]).map Prod.fst)
        = wcount τ (withTimes rl (pruneQ now rl.request_times
            ++ [now + (60 - (now - listMin (pruneQ now rl.request_times)) + j)])).request_times
      rw [withTimes_request_times, List.map_append, wcount_append, wcount_append,
        h5 τ (le_trans hnow hτnow)]
      have hpp : wcount τ (pruneQ now rl.request_times)
          = wcount τ rl.request_times := by
        unfold wcount
        rw [pruneQ_pruneQ τ now hτnow]
      rw [hpp]
      rfl
    · show (wcount (now + (60 - (now - listMin (pruneQ now rl.request_times)) + j))
          ((ads ++ [(now + (60 - (now - listMin (pruneQ now rl.request_times)) + j),
                     rl.current_rpm)]).map Prod.fst) : ℤ)
        ≤ (withTimes rl (pruneQ now rl.request_times
            ++ [now + (60 - (now - listMin (pruneQ now rl.request_times)) + j)])).current_rpm
      rw [withTimes_current_rpm, List.map_append, wcount_append]
      have hone : wcount (now + (60 - (now - listMin (pruneQ now rl.request_times)) + j))
          ((([(now + (60 - (now - listMin (pruneQ now rl.request_times)) + j),
               rl.current_rpm)] : List (ℚ × ℤ))).map Prod.fst) = 1 := by
        simp only [List.map_cons, List.map_nil]
        exact wcount_self _
      rw [hone]
      push_cast
      push_cast at hwin
      omega
    · apply admissionsBounded_append h7
      show (wcount (now + (60 - (now - listMin (pruneQ now rl.request_times)) + j))
          ((ads ++ [(now + (60 - (now - listMin (pruneQ now rl.request_times)) + j),
                     rl.current_rpm)]).map Prod.fst) : ℤ)
        ≤ rl.current_rpm
      rw [List.map_append, wcount_append]
      have hone : wcount (now + (60 - (now - listMin (pruneQ now rl.request_times)) + j))
          ((([(now + (60 - (now - listMin (pruneQ now rl.request_times)) + j),
               rl.current_rpm)] : List (ℚ × ℤ))).map Prod.fst) = 1 := by
        simp only [List.map_cons, List.map_nil]
        exact wcount_self _
      rw [hone]
      push_cast
      push_cast at hwin
      omega

/-- One valid, non-`record_error` event preserves the run invariant. -/
theorem RLInv_step (w : RLWorld) (e : RLEv) (hv : validEv e = true)
    (hne : e.isErrEv = false) (hinv : RLInv w) : RLInv (RLStep w e) := by
  obtain ⟨h1, h5, h6, h7⟩ := hinv
  cases e with
  | err δ m => simp [RLEv.isErrEv] at hne
  | succ δ =>
    simp only [validEv, decide_eq_true_eq] at hv
    simp only [RLStep]
    refine ⟨le_trans h1 (record_success_rpm_le w.rl), ?_, ?_, h7⟩
    · intro τ hτ
      have hτ' : w.clock + δ ≤ τ := hτ
      show wcount τ (w.admitted.map Prod.fst)
        = wcount τ (w.rl.record_success).request_times
      rw [record_success_request_times]
      exact h5 τ (by linarith)
    · show (wcount (w.clock + δ) (w.admitted.map Prod.fst) : ℤ)
        ≤ (w.rl.record_success).current_rpm
      calc (wcount (w.clock + δ) (w.admitted.map Prod.fst) : ℤ)
          ≤ (wcount w.clock (w.admitted.map Prod.fst) : ℤ) := by
            exact_mod_cast wcount_mono (by linarith) _
        _ ≤ w.rl.current_rpm := h6
        _ ≤ _ := record_success_rpm_le w.rl
  | can δ =>
    simp only [validEv, decide_eq_true_eq] at hv
    simp only [RLStep]
    refine ⟨h1, ?_, ?_, h7⟩
    · intro τ hτ
      have hτ' : w.clock + δ ≤ τ := hτ
      show wcount τ (w.admitted.map Prod.fst)
        = wcount τ ((w.rl.can_make_request (w.clock + δ)).2).request_times
      have hreq : ((w.rl.can_make_request (w.clock + δ)).2).request_times
          = pruneQ (w.clock + δ) w.rl.request_times := rfl
      rw [hreq, h5 τ (by linarith)]
      unfold wcount
      rw [pruneQ_pruneQ τ (w.clock + δ) (by linarith)]
    · show (wcount (w.clock + δ) (w.admitted.map Prod.fst) : ℤ)
        ≤ ((w.rl.can_make_request (w.clock + δ)).2).current_rpm
      have hrpm : ((w.rl.can_make_request (w.clock + δ)).2).current_rpm
          = w.rl.current_rpm := rfl
      rw [hrpm]
      calc (wcount (w.clock + δ) (w.admitted.map Prod.fst) : ℤ)
          ≤ (wcount w.clock (w.admitted.map Prod.fst) : ℤ) := by
            exact_mod_cast wcount_mono (by linarith) _
        _ ≤ w.rl.current_rpm := h6
  | wait δ j =>
    simp only [validEv, Bool.and_eq_true, decide_eq_true_eq] at hv
    obtain ⟨⟨hδ, hj1⟩, hj3⟩ := hv
    exact RLInv_wait_aux w.rl w.clock (w.clock + δ) j w.admitted
      (by linarith) hj1 h1 h5 h6 h7

/-- The invariant holds along every valid, error-free run. -/
theorem RLInv_run (es : List RLEv) :
    ∀ w : RLWorld, (∀ e ∈ es, validEv e = true) →
      (∀ e ∈ es, e.isErrEv = false) → RLInv w → RLInv (RLRun w es) := by
  induction es with
  | nil => intro w _ _ hinv; exact hinv
  | cons e rest ih =>
    intro w hval hnerr hinv
    have hstep := RLInv_step w e (hval e (by simp)) (hnerr e (by simp)) hinv
    have hrest := ih (RLStep w e)
      (fun x hx => hval x (by simp [hx]))
      (fun x hx => hnerr x (by simp [hx])) hstep
    simpa [RLRun, List.foldl] using hrest

/-- The invariant holds at a freshly constructed world with positive base
RPM. -/
theorem RLInv_initial (b : ℤ) (p : Bool) (t0 : ℚ) (hb : 1 ≤ b) :
    RLInv ⟨RateLimitManager.init b p, t0, []⟩ := by
  refine ⟨hb, ?_, ?_, ?_⟩
  · intro τ hτ
    rfl
  · show ((wcount t0 ([] : List ℚ)) : ℤ) ≤ b
    simp [wcount, pruneQ]
    omega
  · intro i hi
    simp at hi

/-- C1 (amended): starting from a freshly constructed `RateLimitManager`
with positive ceiling, for every valid sequence of `wait_if_needed`,
`can_make_request` and `record_success` calls (no `record_error`, so the
ceiling never decreases), the number of admitted timestamps in the trailing
60-second window ending at each admission never exceeds the ceiling
`current_rpm` in force at that admission; admission prunes the retained
timestamps to the last 60 seconds, admits iff the retained count is below
the ceiling, and appends the current timestamp.  (With `record_error`
present the bound can be exceeded: see the counterexample.) -/
theorem claim_C1_window_admission_bound (b : ℤ) (p : Bool) (t0 : ℚ)
    (es : List RLEv) (hb : 1 ≤ b)
    (hval : ∀ e ∈ es, validEv e = true)
    (hnerr : ∀ e ∈ es, e.isErrEv = false) :
    admissionsBounded
      (RLRun ⟨RateLimitManager.init b p, t0, []⟩ es).admitted :=
  (RLInv_run es ⟨RateLimitManager.init b p, t0, []⟩ hval hnerr
    (RLInv_initial b p t0 hb)).2.2.2

/-- The C1 witness trace: three admissions at 1-second intervals under the
default free-tier manager. -/
def c1WitnessEvents : List RLEv :=
  [RLEv.wait 0 1, RLEv.wait 1 1, RLEv.succ 0, RLEv.wait 1 2]

/-- Witness for C1 (amended) on a concrete error-free trace. -/
theorem claim_C1_window_admission_bound_witness :
    ((1 : ℤ) ≤ 8) ∧
    (∀ e ∈ c1WitnessEvents, validEv e = true) ∧
    (∀ e ∈ c1WitnessEvents, e.isErrEv = false) ∧
    admissionsBounded
      (RLRun ⟨RateLimitManager.init 8 false, 0, []⟩ c1WitnessEvents).admitted :=
  ⟨by decide, by decide, by decide,
   claim_C1_window_admission_bound 8 false 0 c1WitnessEvents
     (by decide) (by decide) (by decide)⟩

/-- The C1 counterexample trace: 10 admissions at seconds 0..9 with ceiling
10, then 3 `record_error` calls at second 10 (ceiling drops to 8), then one
more `wait_if_needed` with jitter 1: it sleeps 51 seconds and admits at
second 61, when 8 earlier admissions are still inside the trailing window. -/
def c1BadEvents : List RLEv :=
  [RLEv.wait 0 1, RLEv.wait 1 1, RLEv.wait 1 1, RLEv.wait 1 1, RLEv.wait 1 1,
   RLEv.wait 1 1, RLEv.wait 1 1, RLEv.wait 1 1, RLEv.wait 1 1, RLEv.wait 1 1,
   RLEv.err 1 "429".toList, RLEv.err 0 "429".toList, RLEv.err 0 "429".toList,
   RLEv.wait 0 1]

set_option maxHeartbeats 2000000 in
/-- C1 counterexample: on the valid trace `c1BadEvents` (which includes
`record_error` calls), the final admission at time 61 with ceiling 8 has 9
admitted timestamps inside its trailing 60-second window, so the claimed
bound fails for sequences containing `record_error`. -/
theorem claim_C1_counterexample :
    (∀ e ∈ c1BadEvents, validEv e = true) ∧
    ¬ admissionsBounded
        (RLRun ⟨RateLimitManager.init 10 false, 0, []⟩ c1BadEvents).admitted := by
  have hlist : (RLRun ⟨RateLimitManager.init 10 false, 0, []⟩ c1BadEvents).admitted
      = [(0, 10), (1, 10), (2, 10), (3, 10), (4, 10), (5, 10), (6, 10), (7, 10),
         (8, 10), (9, 10), (61, 8)] := by
    norm_num [c1BadEvents, RLRun, RLStep, RateLimitManager.wait_if_needed,
      RateLimitManager.can_make_request, RateLimitManager.record_error,
      RateLimitManager.init, pruneQ, listMin, min_def]
  constructor
  · decide
  · rw [hlist]
    intro h
    have hbad := h 10 (by norm_num)
    norm_num [wcount, pruneQ] at hbad
